import Mathlib

/-!
Verification of the rupio-backend-node normalization pipeline.

Shallow embedding of the core pipeline of the repository:
`src/services/csvParser.js`, the AA data parser service
(`categorizeTransaction`, `extractMerchant`, `parseBankStatement`,
`saveTransactions`) and `src/models/ConsentRecord.js`.

Conventions of the embedding:
- JS strings are Lean `String`s; helpers reproduce the exact JS string
  operations used by the source (ASCII case folding, substring search via
  `includes`, `trim`, regex shapes coded as explicit character matchers).
- JS numbers arising from amounts are modelled as `ℚ`; every concrete value
  in the claims is exactly representable in a binary double, so `ℚ`
  arithmetic agrees with the JS float arithmetic on all inputs considered.
  `NaN` is modelled by `Option ℚ` where the source can produce it.
- Fallible code returns `Except`/`Option`.
-/

namespace Rupio

/-! ## JS string primitives -/

/-- Whitespace class used by JS `trim` and the regex class `\s`
(ASCII portion, which covers every string the source manipulates). -/
def jsIsSpace (c : Char) : Bool :=
  c = ' ' || c = '\t' || c = '\n' || c = '\r' || c = '\x0b' || c = '\x0c'

/-- JS `String.prototype.trim` on a character list. -/
def jsTrimList (l : List Char) : List Char :=
  ((l.dropWhile jsIsSpace).reverse.dropWhile jsIsSpace).reverse

/-- JS `String.prototype.trim`. -/
def jsTrim (s : String) : String :=
  String.mk (jsTrimList s.data)

/-- JS `String.prototype.toLowerCase` (ASCII). -/
def jsToLower (s : String) : String :=
  String.mk (s.data.map Char.toLower)

/-- Substring test on character lists: `sub` occurs contiguously in `s`. -/
def listHasSubstr (s sub : List Char) : Bool :=
  match s with
  | [] => sub.isEmpty
  | _ :: rest => sub.isPrefixOf s || listHasSubstr rest sub

/-- JS `String.prototype.includes`. -/
def jsIncludes (s sub : String) : Bool :=
  listHasSubstr s.data sub.data

/-- Split a character list at every character satisfying `p`
(JS `String.prototype.split` with a single-character-class regex). -/
def splitOnPred (p : Char → Bool) : List Char → List (List Char)
  | [] => [[]]
  | c :: cs =>
    if p c then [] :: splitOnPred p cs
    else
      match splitOnPred p cs with
      | [] => [[c]]
      | l :: ls => (c :: l) :: ls

/-- Drop one trailing carriage return, used to emulate splitting on the
regex `\r?\n`. -/
def dropTrailingCR (l : List Char) : List Char :=
  if l.getLast? = some '\r' then l.dropLast else l

/-- JS `content.split(/\r?\n/)`: split on newlines, a `\r\n` pair counting
as one separator. -/
def jsSplitLines (s : String) : List String :=
  (splitOnPred (fun c => c = '\n') s.data).map (fun l => String.mk (dropTrailingCR l))

/-- Value of a list of decimal digit characters (JS `parseInt` on an
all-digit string, and the number coercion applied by arithmetic on a
regex capture group). -/
def digitsVal (l : List Char) : Nat :=
  l.foldl (fun a c => 10 * a + (c.toNat - 48)) 0

/-! ## Amount parsing (`parseAmount`, src/services/csvParser.js) -/

/-- Currency symbols stripped by `parseAmount` (the regex `[₹$€£]`). -/
def isCurrencySym (c : Char) : Bool :=
  c = '₹' || c = '$' || c = '€' || c = '£'

/-- Cleaning step of `parseAmount`: remove currency symbols, commas and
whitespace, then trim (the trim is vacuous after whitespace removal but is
kept to mirror the source). -/
def cleanAmount (s : String) : String :=
  jsTrim (String.mk (s.data.filter (fun c => !(isCurrencySym c || c = ',' || jsIsSpace c))))

/-- Exponent suffix accepted by a JS float literal: `e`/`E`, an optional
sign and at least one digit; anything else contributes exponent 0 (JS
`parseFloat` parses the longest valid literal prefix, so a malformed
exponent is simply not consumed). -/
def parseExpSuffix (l : List Char) : Int :=
  match l with
  | c :: rest =>
    if c = 'e' || c = 'E' then
      match rest with
      | '-' :: r2 =>
        let ds := r2.takeWhile Char.isDigit
        if ds.isEmpty then 0 else -(digitsVal ds : Int)
      | '+' :: r2 =>
        let ds := r2.takeWhile Char.isDigit
        if ds.isEmpty then 0 else (digitsVal ds : Int)
      | _ =>
        let ds := rest.takeWhile Char.isDigit
        if ds.isEmpty then 0 else (digitsVal ds : Int)
    else 0
  | [] => 0

/-- Power of ten as a rational, by structural recursion (kept free of
typeclass-heavy power operators so that concrete values evaluate). -/
def pow10 : Nat → ℚ
  | 0 => 1
  | n + 1 => 10 * pow10 n

/-- JS `Math.abs` on a rational. -/
def jsAbs (q : ℚ) : ℚ :=
  if q < 0 then -q else q

/-- Scale a rational by a power of ten (the exponent part of a float
literal). -/
def scalePow10 (q : ℚ) (e : Int) : ℚ :=
  if 0 ≤ e then q * pow10 e.toNat else q / pow10 (-e).toNat

/-- JS `parseFloat` on the character list after leading whitespace:
optional sign, digits, optional fraction, optional well-formed exponent;
`none` models `NaN`.  The `Infinity` literal, which no call site of the
source can meaningfully receive, is not modelled. -/
def parseFloatChars (l : List Char) : Option ℚ :=
  let signed : ℚ × List Char :=
    match l with
    | '-' :: rest => (-1, rest)
    | '+' :: rest => (1, rest)
    | _ => (1, l)
  let intPart := signed.2.takeWhile Char.isDigit
  let afterInt := signed.2.drop intPart.length
  let fracPart :=
    match afterInt with
    | '.' :: rest => rest.takeWhile Char.isDigit
    | _ => []
  let afterFrac :=
    match afterInt with
    | '.' :: rest => rest.drop fracPart.length
    | _ => afterInt
  if intPart.isEmpty && fracPart.isEmpty then none
  else
    let mantissa : ℚ :=
      (digitsVal intPart : ℚ) + (digitsVal fracPart : ℚ) / pow10 fracPart.length
    some (signed.1 * scalePow10 mantissa (parseExpSuffix afterFrac))

/-- JS `parseFloat`. -/
def jsParseFloat (s : String) : Option ℚ :=
  parseFloatChars (s.data.dropWhile jsIsSpace)

/-- Embeds `parseAmount` (src/services/csvParser.js): strip currency
symbols, commas and whitespace, parse, and return `Math.abs` of the
result, or 0 when the cleaned string does not parse (`isNaN` branch) or
the input is empty (falsy guard). -/
def parseAmount (s : String) : ℚ :=
  if s = "" then 0
  else
    match jsParseFloat (cleanAmount s) with
    | none => 0
    | some q => jsAbs q

/-! ## Narration classifier (`categorizeTransaction`, AA data parser) -/

/-- One entry of the `CATEGORY_RULES` table. -/
structure CatRule where
  keywords : List String
  category : String
  subcategory : String
deriving DecidableEq

/-- Embeds `CATEGORY_RULES` of the AA data parser service, in source
order. -/
def CATEGORY_RULES : List CatRule := [
  ⟨["salary", "payroll", "wages"], "Income", "Salary"⟩,
  ⟨["interest", "int credit"], "Income", "Interest"⟩,
  ⟨["dividend"], "Income", "Dividend"⟩,
  ⟨["refund", "cashback"], "Income", "Refund"⟩,
  ⟨["rent", "rental"], "Housing", "Rent"⟩,
  ⟨["electricity", "power", "bescom", "discom"], "Utilities", "Electricity"⟩,
  ⟨["water", "bwssb"], "Utilities", "Water"⟩,
  ⟨["gas", "lpg", "indane", "bharat gas"], "Utilities", "Gas"⟩,
  ⟨["mobile", "recharge", "airtel", "jio", "vi ", "bsnl"], "Utilities", "Mobile"⟩,
  ⟨["broadband", "internet", "wifi"], "Utilities", "Internet"⟩,
  ⟨["swiggy", "zomato", "food", "restaurant", "cafe", "hotel"], "Food", "Dining"⟩,
  ⟨["grocery", "bigbasket", "blinkit", "zepto", "dmart"], "Food", "Groceries"⟩,
  ⟨["amazon", "flipkart", "myntra", "shopping", "mall"], "Shopping", "Online"⟩,
  ⟨["uber", "ola", "rapido", "taxi", "cab"], "Transport", "Ride"⟩,
  ⟨["petrol", "diesel", "fuel", "iocl", "bpcl", "hpcl"], "Transport", "Fuel"⟩,
  ⟨["metro", "bus", "train", "irctc"], "Transport", "Public"⟩,
  ⟨["emi", "loan", "equated"], "Loan", "EMI"⟩,
  ⟨["insurance", "lic", "premium"], "Insurance", "Premium"⟩,
  ⟨["mutual fund", "sip", "investment"], "Investment", "Mutual Fund"⟩,
  ⟨["atm", "cash withdrawal"], "Cash", "ATM"⟩,
  ⟨["transfer", "upi", "neft", "imps", "rtgs"], "Transfer", "Bank Transfer"⟩,
  ⟨["netflix", "prime", "hotstar", "spotify", "subscription"], "Entertainment", "Subscription"⟩,
  ⟨["hospital", "medical", "pharmacy", "doctor", "clinic"], "Health", "Medical"⟩,
  ⟨["school", "college", "tuition", "education", "course"], "Education", "Fees"⟩]

/-- Does a rule fire on the lower-cased narration (`rule.keywords.some
(keyword => lowerNarration.includes(keyword))`)? -/
def ruleMatches (lower : String) (r : CatRule) : Bool :=
  r.keywords.any (fun k => jsIncludes lower k)

/-- The `for (const rule of CATEGORY_RULES)` loop with early return. -/
def firstMatchingRule (lower : String) : List CatRule → Option CatRule
  | [] => none
  | r :: rs => if ruleMatches lower r then some r else firstMatchingRule lower rs

/-- Embeds `categorizeTransaction` (AA data parser): default on falsy
narration, otherwise the first rule of the table one of whose keywords is
a substring of the lower-cased narration. -/
def categorizeTransaction (narration : String) : String × String :=
  if narration = "" then ("Other", "Uncategorized")
  else
    match firstMatchingRule (jsToLower narration) CATEGORY_RULES with
    | some r => (r.category, r.subcategory)
    | none => ("Other", "Uncategorized")

/-! ## Merchant extraction (`extractMerchant`, AA data parser)

The five regex patterns are coded as explicit matchers.  The rail
patterns are `RAIL[-\/]([A-Za-z0-9\s]+?)[-\/]` (case-insensitive, lazy
capture), the word patterns are `to\s+([A-Za-z0-9\s]+)` and
`from\s+([A-Za-z0-9\s]+)` (case-insensitive, greedy capture). -/

/-- The character class `[A-Za-z0-9\s]` of the merchant regexes. -/
def isMerchChar (c : Char) : Bool :=
  c.isAlpha || c.isDigit || jsIsSpace c

/-- The delimiter class `[-\/]`. -/
def isRailSep (c : Char) : Bool :=
  c = '-' || c = '/'

/-- Case-insensitive literal prefix: strip `word` (given lower-case) from
the head of `l`, comparing lower-cased characters. -/
def stripCI : List Char → List Char → Option (List Char)
  | [], l => some l
  | _ :: _, [] => none
  | p :: ps, c :: cs => if c.toLower = p then stripCI ps cs else none

/-- Lazy capture body: `acc` holds the (reversed, nonempty) capture so
far; stop at the first delimiter, extend on a class character, fail
otherwise.  Because the delimiter class and the capture class are
disjoint, this is exactly the behaviour of the lazy `+?`. -/
def lazyCaptureGo (acc : List Char) : List Char → Option (List Char)
  | [] => none
  | c :: cs =>
    if isRailSep c then some acc.reverse
    else if isMerchChar c then lazyCaptureGo (c :: acc) cs
    else none

/-- Capture of `([A-Za-z0-9\s]+?)[-\/]`: at least one class character and
a closing delimiter. -/
def lazyCapture : List Char → Option (List Char)
  | [] => none
  | c :: cs => if isMerchChar c then lazyCaptureGo [c] cs else none

/-- Attempt `RAIL[-\/](…+?)[-\/]` at the current position. -/
def matchRailHere (rail : List Char) (l : List Char) : Option (List Char) :=
  match stripCI rail l with
  | some (s :: rest) => if isRailSep s then lazyCapture rest else none
  | _ => none

/-- Leftmost search for a rail pattern (`String.prototype.match` scans
from the left for the first position where the whole pattern matches). -/
def searchRail (rail : List Char) : List Char → Option (List Char)
  | [] => none
  | c :: cs =>
    match matchRailHere rail (c :: cs) with
    | some cap => some cap
    | none => searchRail rail cs

/-- Attempt `word\s+([A-Za-z0-9\s]+)` at the current position.  The
greedy `\s+` first takes the maximal whitespace run; if no class
character follows, backtracking hands the last whitespace character of a
run of length at least two to the capture group. -/
def matchWordHere (word : List Char) (l : List Char) : Option (List Char) :=
  match stripCI word l with
  | none => none
  | some rest =>
    let ws := rest.takeWhile jsIsSpace
    if ws.isEmpty then none
    else
      let after := rest.drop ws.length
      let cap := after.takeWhile isMerchChar
      if cap.isEmpty then
        if 2 ≤ ws.length then
          match ws.getLast? with
          | some w => some [w]
          | none => none
        else none
      else some cap

/-- Leftmost search for a `word\s+(…)` pattern. -/
def searchWord (word : List Char) : List Char → Option (List Char)
  | [] => none
  | c :: cs =>
    match matchWordHere word (c :: cs) with
    | some cap => some cap
    | none => searchWord word cs

/-- The `for (const pattern of patterns)` loop: return the first
successful capture whose text is truthy (the `match && match[1]` guard),
otherwise keep trying. -/
def pickCapture : List (Option (List Char)) → Option (List Char)
  | [] => none
  | some cap :: rest => if cap ≠ [] then some cap else pickCapture rest
  | none :: rest => pickCapture rest

/-- The first segment of the narration before a `-` or `/` delimiter
(`narration.split(/[-\/]/)[0]`). -/
def firstSegment (l : List Char) : List Char :=
  (splitOnPred isRailSep l).headD []

/-- Embeds `extractMerchant` (AA data parser): try the five patterns in
order and return the trimmed capture capped at 100 characters; fall back
to the trimmed first delimiter-segment, returning null when that is empty
(the trailing `|| null`). -/
def extractMerchant (narration : String) : Option String :=
  if narration = "" then none
  else
    let l := narration.data
    match pickCapture [searchRail "upi".data l, searchRail "neft".data l,
        searchRail "imps".data l, searchWord "to".data l, searchWord "from".data l] with
    | some cap => some (String.mk ((jsTrimList cap).take 100))
    | none =>
      let seg := (jsTrimList (firstSegment l)).take 100
      if seg = [] then none else some (String.mk seg)

/-- Embeds `detectPaymentMode` (src/services/csvParser.js): single-pass
keyword scan over the lower-cased narration, first match wins. -/
def detectPaymentMode (narration : String) : String :=
  if narration = "" then "OTHER"
  else
    let lower := jsToLower narration
    if jsIncludes lower "upi" then "UPI"
    else if jsIncludes lower "neft" then "NEFT"
    else if jsIncludes lower "imps" then "IMPS"
    else if jsIncludes lower "rtgs" then "RTGS"
    else if jsIncludes lower "atm" then "ATM"
    else if jsIncludes lower "pos" || jsIncludes lower "card" then "CARD"
    else if jsIncludes lower "cheque" || jsIncludes lower "chq" then "CHEQUE"
    else if jsIncludes lower "cash" then "CASH"
    else "OTHER"

/-! ## CSV statement parser (src/services/csvParser.js) -/

/-- The quote-toggling loop of `parseCSVLine`: split on commas outside
quotes, quote characters toggling the flag without being emitted. -/
def parseCSVLineChars : List Char → Bool → List Char → List (List Char)
  | [], _, current => [current.reverse]
  | c :: cs, inQ, current =>
    if c = '"' then parseCSVLineChars cs (!inQ) current
    else if c = ',' && !inQ then current.reverse :: parseCSVLineChars cs inQ []
    else parseCSVLineChars cs inQ (c :: current)

/-- The regex replace `/^"|"$/g`: one leading and one trailing quote are
removed. -/
def stripEdgeQuotes (l : List Char) : List Char :=
  let l1 := match l with
    | '"' :: rest => rest
    | _ => l
  match l1.getLast? with
  | some '"' => l1.dropLast
  | _ => l1

/-- Embeds `parseCSVLine`: split honouring quotes, then strip edge quotes
and trim each value. -/
def parseCSVLine (line : String) : List String :=
  (parseCSVLineChars line.data false []).map (fun v => String.mk (jsTrimList (stripEdgeQuotes v)))

/-- A parsed CSV row object: header/value bindings in assignment order. -/
abbrev Row := List (String × String)

/-- JS property read `row[key]` where later assignments of a duplicate
header win. -/
def rowLookup (row : Row) (key : String) : Option String :=
  (row.reverse.find? (fun p => p.1 = key)).map (fun p => p.2)

/-- Read `row[key]` where `key` is an optional column name; an absent
column or binding behaves like the empty string (every call site of the
source treats `undefined` and `''` alike: falsy guards and `|| ''`). -/
def rowValue (row : Row) (key : Option String) : String :=
  (key.bind (rowLookup row)).getD ""

/-- Embeds `parseCSVContent`: split lines, lower-case and trim headers,
keep exactly the non-empty data lines whose parsed field count equals the
header field count (others are silently skipped), and bind values to
headers.  The per-value `trim` of the source is kept even though
`parseCSVLine` output is already trimmed. -/
def parseCSVContent (content : String) : Except String (List String × List Row) :=
  let lines := jsSplitLines (jsTrim content)
  if lines.length < 2 then .error "CSV must have at least a header row and one data row"
  else
    let headers := (parseCSVLine (lines.headD "")).map (fun h => jsTrim (jsToLower h))
    let rows := (lines.drop 1).filterMap (fun ln =>
      let line := jsTrim ln
      if line = "" then none
      else
        let values := parseCSVLine line
        if values.length = headers.length then
          some (headers.zip (values.map jsTrim))
        else none)
    .ok (headers, rows)

/-- Detected column mapping (`undefined` fields are `none`). -/
structure ColumnMapping where
  date : Option String
  narration : Option String
  debit : Option String
  credit : Option String
  balance : Option String
  reference : Option String
deriving DecidableEq

/-- Alias table `BANK_FORMATS.standard.date`. -/
def dateAliases : List String := ["date", "transaction date", "txn date", "trans date"]

/-- Alias table `BANK_FORMATS.standard.narration`. -/
def narrationAliases : List String := ["description", "narration", "particulars", "remarks", "details"]

/-- Alias table `BANK_FORMATS.standard.debit`. -/
def debitAliases : List String := ["debit", "withdrawal", "withdrawal amt", "withdrawal amt.", "dr"]

/-- Alias table `BANK_FORMATS.standard.credit`. -/
def creditAliases : List String := ["credit", "deposit", "deposit amt", "deposit amt.", "cr"]

/-- Alias table `BANK_FORMATS.standard.balance`. -/
def balanceAliases : List String := ["balance", "closing balance", "available balance"]

/-- Alias table `BANK_FORMATS.standard.reference`. -/
def referenceAliases : List String := ["ref", "reference", "ref no", "ref no.", "chq./ref.no.", "cheque no", "txn id"]

/-- The per-field search of `detectColumnMapping`: the first header that
contains any alias as a substring. -/
def findHeaderFor (headers : List String) (aliases : List String) : Option String :=
  headers.find? (fun h => aliases.any (fun a => jsIncludes h a))

/-- Embeds `detectColumnMapping`: detect each field independently, then
require a date column and at least one of debit/credit. -/
def detectColumnMapping (headers : List String) : Except String ColumnMapping :=
  let m : ColumnMapping := {
    date := findHeaderFor headers dateAliases,
    narration := findHeaderFor headers narrationAliases,
    debit := findHeaderFor headers debitAliases,
    credit := findHeaderFor headers creditAliases,
    balance := findHeaderFor headers balanceAliases,
    reference := findHeaderFor headers referenceAliases }
  if m.date = none then .error "CSV must have a date column (Date, Transaction Date, Txn Date)"
  else if m.debit = none ∧ m.credit = none then
    .error "CSV must have debit/credit or withdrawal/deposit columns"
  else .ok m

/-- A JS `Date` built by `new Date(year, monthIndex, day)`: the arguments
as passed, except for the documented ECMAScript quirk that a year
argument between 0 and 99 is interpreted as 1900 + year.  `month` is the
0-based month index. -/
structure JsDate where
  year : Int
  month : Int
  day : Int
deriving DecidableEq

/-- The `new Date(y, m, d)` constructor (two-digit-year quirk included). -/
def mkJsDate (y m d : Int) : JsDate :=
  { year := if 0 ≤ y ∧ y ≤ 99 then 1900 + y else y, month := m, day := d }

/-- Anchored matcher for `^(\d{2})[-\/](\d{2})[-\/](\d{4})$`. -/
def matchDDMMYYYY (l : List Char) : Option (Nat × Nat × Nat) :=
  match l with
  | [a, b, s1, p, q, s2, e, f, g, h] =>
    if a.isDigit && b.isDigit && isRailSep s1 && p.isDigit && q.isDigit && isRailSep s2
        && e.isDigit && f.isDigit && g.isDigit && h.isDigit then
      some (digitsVal [a, b], digitsVal [p, q], digitsVal [e, f, g, h])
    else none
  | _ => none

/-- Anchored matcher for `^(\d{4})[-\/](\d{2})[-\/](\d{2})$`. -/
def matchYYYYMMDD (l : List Char) : Option (Nat × Nat × Nat) :=
  match l with
  | [a, b, p, q, s1, e, f, s2, g, h] =>
    if a.isDigit && b.isDigit && p.isDigit && q.isDigit && isRailSep s1
        && e.isDigit && f.isDigit && isRailSep s2 && g.isDigit && h.isDigit then
      some (digitsVal [a, b, p, q], digitsVal [e, f], digitsVal [g, h])
    else none
  | _ => none

/-- Anchored matcher for `^(\d{2})[-\/](\d{2})[-\/](\d{2})$`. -/
def matchDDMMYY (l : List Char) : Option (Nat × Nat × Nat) :=
  match l with
  | [a, b, s1, p, q, s2, e, f] =>
    if a.isDigit && b.isDigit && isRailSep s1 && p.isDigit && q.isDigit && isRailSep s2
        && e.isDigit && f.isDigit then
      some (digitsVal [a, b], digitsVal [p, q], digitsVal [e, f])
    else none
  | _ => none

/-- Embeds `parseDate` (src/services/csvParser.js): falsy guard, then the
three explicit patterns tried in source order (the `DD MMM YYYY` entry of
the `formats` array is dead code, never consulted), and finally the
generic `new Date(dateStr)` fallback.  The fallback is the JS engine's
`Date.parse`, which is not part of the repository; it is passed in as the
parameter `fb`, and every theorem below holds for an arbitrary `fb`. -/
def parseDate (fb : String → Option JsDate) (dateStr : String) : Option JsDate :=
  if dateStr = "" then none
  else
    match matchDDMMYYYY dateStr.data with
    | some (dd, mm, yyyy) => some (mkJsDate yyyy ((mm : Int) - 1) dd)
    | none =>
      match matchYYYYMMDD dateStr.data with
      | some (yyyy, mm, dd) => some (mkJsDate yyyy ((mm : Int) - 1) dd)
      | none =>
        match matchDDMMYY dateStr.data with
        | some (dd, mm, yy) =>
          some (mkJsDate (if 50 < yy then 1900 + (yy : Int) else 2000 + (yy : Int))
            ((mm : Int) - 1) dd)
        | none => fb dateStr

/-- Embeds `validateRow`: a row must have a parseable date and a nonzero
debit or credit; each failure contributes one indexed error string. -/
def validateRow (fb : String → Option JsDate) (row : Row) (mapping : ColumnMapping)
    (rowIndex : Nat) : Bool × List String :=
  let dateStr := rowValue row mapping.date
  let e1 : List String :=
    match parseDate fb dateStr with
    | some _ => []
    | none => ["Row " ++ toString (rowIndex + 1) ++ ": Invalid date \"" ++ dateStr ++ "\""]
  let debit := parseAmount (rowValue row mapping.debit)
  let credit := parseAmount (rowValue row mapping.credit)
  let e2 : List String :=
    if debit = 0 ∧ credit = 0 then
      ["Row " ++ toString (rowIndex + 1) ++ ": Both debit and credit are zero or invalid"]
    else []
  let errors := e1 ++ e2
  (errors.isEmpty, errors)

/-- Milliseconds since the Unix epoch of a `JsDate` at UTC midnight
(`date.getTime()` under a UTC environment), via the standard
days-from-civil computation; only used to synthesize a `txn_id` for rows
with no reference value. -/
def epochMillis (dt : JsDate) : Int :=
  let ym := dt.year * 12 + dt.month
  let y := ym.fdiv 12
  let m := ym.fmod 12 + 1
  let yAdj := if m ≤ 2 then y - 1 else y
  let era := yAdj.fdiv 400
  let yoe := yAdj - era * 400
  let mp := (m + 9).fmod 12
  let doy := (153 * mp + 2).fdiv 5 + dt.day - 1
  let doe := yoe * 365 + yoe.fdiv 4 - yoe.fdiv 100 + doy
  (era * 146097 + doe - 719468) * 86400000

/-- A normalized transaction emitted by the CSV path. -/
structure CSVTxn where
  txn_id : String
  user_id : String
  consent_id : Option String
  date : JsDate
  amount : ℚ
  type : String
  merchant : Option String
  category : String
  subcategory : String
  source_type : String
  source_account : Option String
  mode : String
  reference : String
  narration : String
  balance : Option ℚ
  currency : String
  raw_data : Row
deriving DecidableEq

/-- The loop body of `parseCSVStatement` after a row passed validation:
re-parse the fields and build the normalized record.  The `none` branch
is unreachable for validated rows (validation required the date to
parse). -/
def csvRowTxn (fb : String → Option JsDate) (userId : String) (sourceAccount : Option String)
    (mapping : ColumnMapping) (index : Nat) (row : Row) : Option CSVTxn :=
  match parseDate fb (rowValue row mapping.date) with
  | none => none
  | some date =>
    let debit := parseAmount (rowValue row mapping.debit)
    let credit := parseAmount (rowValue row mapping.credit)
    let narration := rowValue row mapping.narration
    let reference := rowValue row mapping.reference
    let balance : Option ℚ :=
      match mapping.balance with
      | some k => some (parseAmount (rowValue row (some k)))
      | none => none
    let cat := categorizeTransaction narration
    some {
      txn_id := if reference ≠ "" then reference
        else "CSV_" ++ userId ++ "_" ++ toString (epochMillis date) ++ "_" ++ toString index,
      user_id := userId,
      consent_id := none,
      date := date,
      amount := if 0 < credit then credit else debit,
      type := if 0 < credit then "CREDIT" else "DEBIT",
      merchant := extractMerchant narration,
      category := cat.1,
      subcategory := cat.2,
      source_type := "BANK_ACCOUNT",
      source_account := sourceAccount,
      mode := detectPaymentMode narration,
      reference := reference,
      narration := narration,
      balance := balance,
      currency := "INR",
      raw_data := row }

/-- The summary object of `parseCSVStatement`. -/
structure CSVSummary where
  totalRows : Nat
  parsed : Nat
  failed : Nat
  totalCredit : ℚ
  totalDebit : ℚ
deriving DecidableEq

/-- The result object of `parseCSVStatement`. -/
structure CSVParse where
  transactions : List CSVTxn
  errors : List String
  summary : CSVSummary
deriving DecidableEq

/-- The `rows.forEach` body of `parseCSVStatement`: collect either the
row's validation errors or its normalized transaction. -/
def csvStep (fb : String → Option JsDate) (userId : String) (sourceAccount : Option String)
    (mapping : ColumnMapping) (acc : List CSVTxn × List String) (ir : Nat × Row) :
    List CSVTxn × List String :=
  let validation := validateRow fb ir.2 mapping ir.1
  if validation.1 then
    match csvRowTxn fb userId sourceAccount mapping ir.1 ir.2 with
    | some t => (acc.1 ++ [t], acc.2)
    | none => acc
  else (acc.1, acc.2 ++ validation.2)

/-- Embeds `parseCSVStatement`: parse the content, detect the column
mapping, process each retained row, and aggregate the summary. -/
def parseCSVStatement (fb : String → Option JsDate) (csvContent userId : String)
    (sourceAccount : Option String) : Except String CSVParse :=
  match parseCSVContent csvContent with
  | .error e => .error e
  | .ok (headers, rows) =>
    match detectColumnMapping headers with
    | .error e => .error e
    | .ok mapping =>
      let res := rows.enum.foldl (csvStep fb userId sourceAccount mapping) ([], [])
      .ok {
        transactions := res.1,
        errors := res.2,
        summary := {
          totalRows := rows.length,
          parsed := res.1.length,
          failed := res.2.length,
          totalCredit := (res.1.filter (fun t => t.type = "CREDIT")).foldl
            (fun s t => s + t.amount) 0,
          totalDebit := (res.1.filter (fun t => t.type = "DEBIT")).foldl
            (fun s t => s + t.amount) 0 } }

/-- Embeds `getSampleCSVFormat`. -/
def getSampleCSVFormat : String :=
  "Date,Description,Debit,Credit,Balance,Reference\n01-11-2024,SALARY CREDIT NOV 2024,,50000.00,150000.00,SAL001\n02-11-2024,UPI-SWIGGY-ORDER123,500.00,,149500.00,UPI001\n03-11-2024,NEFT-RENT PAYMENT,15000.00,,134500.00,NEFT001\n05-11-2024,ATM WITHDRAWAL,5000.00,,129500.00,ATM001\n10-11-2024,UPI-AMAZON PAY,2500.00,,127000.00,UPI002\n15-11-2024,INTEREST CREDIT,,125.50,127125.50,INT001"

/-! ## Aggregator response parsing (`parseBankStatement`, AA data parser)

The AA payload is modelled at the shape the source reads: optional nested
objects become `Option` fields, and the `|| []` / `?.` guards of the
source become `Option` eliminations. -/

/-- One transaction object of an AA `Transactions.Transaction` list. -/
structure AATxn where
  txnId : String
  type : String
  mode : String
  amount : String
  currentBalance : Option String
  transactionTimestamp : String
  narration : String
  reference : String
deriving DecidableEq

/-- The `Account.Transactions` container. -/
structure AATxnContainer where
  Transaction : Option (List AATxn)
deriving DecidableEq

/-- An `Account` object of an AA data block. -/
structure AAAccount where
  type : Option String
  currency : Option String
  Transactions : Option AATxnContainer
deriving DecidableEq

/-- One entry of `fi.data`. -/
structure AADataBlock where
  maskedAccNumber : Option String
  Account : Option AAAccount
deriving DecidableEq

/-- One entry of `aaResponse.FI`. -/
structure AAFIBlock where
  fipId : Option String
  data : Option (List AADataBlock)
deriving DecidableEq

/-- The AA FI response. -/
structure AAResponse where
  FI : Option (List AAFIBlock)
deriving DecidableEq

/-- The `fiType -> source_type` table of `mapSourceType`. -/
def sourceTypeTable : List (String × String) :=
  [("DEPOSIT", "BANK_ACCOUNT"), ("SAVINGS", "BANK_ACCOUNT"), ("CURRENT", "BANK_ACCOUNT"),
   ("CREDIT_CARD", "CREDIT_CARD"), ("TERM_DEPOSIT", "BANK_ACCOUNT"),
   ("RECURRING_DEPOSIT", "BANK_ACCOUNT"), ("LOAN", "LOAN"), ("MUTUAL_FUND", "MUTUAL_FUND"),
   ("INSURANCE", "INSURANCE")]

/-- Embeds `mapSourceType`: `mapping[fiType] || mapping[accountType] ||
'OTHER'` (the source calls it with a single argument, so `accountType` is
`none` at the call site modelled here). -/
def mapSourceType (fiType accountType : Option String) : String :=
  match fiType.bind (fun t => (sourceTypeTable.find? (fun p => p.1 = t)).map (fun p => p.2)) with
  | some v => v
  | none =>
    match accountType.bind
        (fun t => (sourceTypeTable.find? (fun p => p.1 = t)).map (fun p => p.2)) with
    | some v => v
    | none => "OTHER"

/-- A normalized transaction emitted by the aggregator path.  `amount` is
`parseFloat(txn.amount)` where `none` models `NaN`; `date_src` carries the
string handed to `new Date(...)` verbatim (no claim inspects the
constructed date).  `balance` is `null` when `txn.currentBalance` is
falsy, otherwise `parseFloat` of it, with a `NaN` parse also modelled as
`none`. -/
structure AGTxn where
  txn_id : String
  user_id : String
  consent_id : String
  date_src : String
  amount : Option ℚ
  type : String
  merchant : Option String
  category : String
  subcategory : String
  source_type : String
  source_account : Option String
  mode : String
  reference : String
  narration : String
  balance : Option ℚ
  currency : String
  raw_data : AATxn
deriving DecidableEq

/-- The per-transaction body of the innermost `parseBankStatement` loop. -/
def agTxnOf (userId consentId : String) (sourceType : String)
    (maskedAccNumber : Option String) (currency : Option String) (txn : AATxn) : AGTxn :=
  let cat := categorizeTransaction txn.narration
  { txn_id := txn.txnId,
    user_id := userId,
    consent_id := consentId,
    date_src := txn.transactionTimestamp,
    amount := jsParseFloat txn.amount,
    type := txn.type,
    merchant := extractMerchant txn.narration,
    category := cat.1,
    subcategory := cat.2,
    source_type := sourceType,
    source_account := maskedAccNumber,
    mode := txn.mode,
    reference := txn.reference,
    narration := txn.narration,
    balance :=
      match txn.currentBalance with
      | some cb => if cb = "" then none else jsParseFloat cb
      | none => none,
    currency :=
      match currency with
      | some c => if c = "" then "INR" else c
      | none => "INR",
    raw_data := txn }

/-- Embeds `parseBankStatement` (AA data parser): iterate providers, data
blocks and transaction lists, degrading missing structure to empty
results; `!aaResponse?.FI` short-circuits to an empty list. -/
def parseBankStatement (resp : Option AAResponse) (userId consentId : String) : List AGTxn :=
  match resp with
  | none => []
  | some r =>
    match r.FI with
    | none => []
    | some fis =>
      fis.flatMap (fun fi =>
        (fi.data.getD []).flatMap (fun d =>
          let account := d.Account
          let sourceType := mapSourceType (account.bind (fun a => a.type)) none
          let txnList :=
            (account.bind (fun a => a.Transactions.bind (fun t => t.Transaction))).getD []
          txnList.map (agTxnOf userId consentId sourceType d.maskedAccNumber
            (account.bind (fun a => a.currency)))))

/-! ## Persistence (`saveTransactions`, AA data parser)

The store is the list of persisted rows.  `Transaction.upsert` with
`conflictFields: ['txn_id', 'user_id']` is an atomic
insert-or-update-on-conflict: when a row with the same key exists it is
overwritten with the new values, otherwise the row is inserted; it never
raises `SequelizeUniqueConstraintError`, so the `skipped` branch of the
source's `catch` can never run, and no other failure is modelled, so the
`errors` branch cannot run either. -/

/-- Result object of `saveTransactions`. -/
structure SaveResult where
  saved : Nat
  skipped : Nat
  errors : List String
deriving DecidableEq

/-- The storage collaborator's upsert keyed by `(txn_id, user_id)`:
overwrite the conflicting row or append. -/
def upsertTxn {α : Type} (tid uid : α → String) (txn : α) (db : List α) : List α :=
  if db.any (fun r => tid r = tid txn && uid r = uid txn) then
    db.map (fun r => if tid r = tid txn && uid r = uid txn then txn else r)
  else db ++ [txn]

/-- Embeds `saveTransactions`: upsert each record in order, counting every
upsert as saved (see the module comment: with `upsert`, the uniqueness
`catch` branch is unreachable). -/
def saveTransactions {α : Type} (tid uid : α → String) (batch : List α) (db : List α) :
    SaveResult × List α :=
  batch.foldl
    (fun acc txn =>
      ({ acc.1 with saved := acc.1.saved + 1 }, upsertTxn tid uid txn acc.2))
    (⟨0, 0, []⟩, db)

/-! ## Consent records (src/models/ConsentRecord.js)

The model's rows live in a `ConsentStore`; `create` appends a row with a
fresh storage id and a hash computed by the `beforeCreate` hook, and the
`beforeUpdate` hook rejects every update, so no operation mutates an
existing row.  The SHA-256 digest over `JSON.stringify` of the ten
semantic fields is modelled as an abstract function `hash` out of exactly
those fields; theorems that need tamper evidence assume `hash` is
injective (the collision-freeness idealization of SHA-256), and witnesses
instantiate `hash` with the identity. -/

/-- The ten fields serialized by `ConsentRecord.generateHash`, in source
order. -/
structure HashedFields where
  consent_id : String
  user_id : String
  customer_id : String
  aa_request : String
  aa_response : Option String
  scopes : List String
  status : String
  expires_at : Int
  version : Nat
  parent_id : Option Nat
deriving DecidableEq

/-- A stored consent record; `H` is the hash digest type. -/
structure CRec (H : Type) where
  id : Nat
  consent_id : String
  consent_handle : Option String
  user_id : String
  customer_id : String
  aa_request : String
  aa_response : Option String
  scopes : List String
  status : String
  purpose_code : Option String
  fip_id : Option String
  data_hash : H
  version : Nat
  parent_id : Option Nat
  expires_at : Int

/-- The semantic fields of a record, as hashed by `generateHash`. -/
def hashedFields {H : Type} (r : CRec H) : HashedFields :=
  { consent_id := r.consent_id, user_id := r.user_id, customer_id := r.customer_id,
    aa_request := r.aa_request, aa_response := r.aa_response, scopes := r.scopes,
    status := r.status, expires_at := r.expires_at, version := r.version,
    parent_id := r.parent_id }

/-- Embeds `ConsentRecord.generateHash`. -/
def generateHash {H : Type} (hash : HashedFields → H) (r : CRec H) : H :=
  hash (hashedFields r)

/-- Embeds `ConsentRecord.prototype.verifyIntegrity`: recompute and
compare. -/
def verifyIntegrity {H : Type} [DecidableEq H] (hash : HashedFields → H) (r : CRec H) : Bool :=
  r.data_hash = generateHash hash r

/-- The consent table plus the id generator of the storage layer. -/
structure ConsentStore (H : Type) where
  recs : List (CRec H)
  nextId : Nat

/-- Field values supplied to `ConsentRecord.create` (everything except the
storage id and the hash, which the hook computes). -/
structure ConsentInput where
  consent_id : String
  consent_handle : Option String
  user_id : String
  customer_id : String
  aa_request : String
  aa_response : Option String
  scopes : List String
  status : String
  purpose_code : Option String
  fip_id : Option String
  version : Nat
  parent_id : Option Nat
  expires_at : Int

/-- Embeds `ConsentRecord.create`: assign a fresh id, let the
`beforeCreate` hook fill `data_hash` from the semantic fields, and append
the new row (insert-only; nothing else in the store changes). -/
def createRecord {H : Type} (hash : HashedFields → H) (inp : ConsentInput)
    (st : ConsentStore H) : CRec H × ConsentStore H :=
  let rec0 : CRec H :=
    { id := st.nextId, consent_id := inp.consent_id, consent_handle := inp.consent_handle,
      user_id := inp.user_id, customer_id := inp.customer_id, aa_request := inp.aa_request,
      aa_response := inp.aa_response, scopes := inp.scopes, status := inp.status,
      purpose_code := inp.purpose_code, fip_id := inp.fip_id,
      data_hash := hash
        { consent_id := inp.consent_id, user_id := inp.user_id,
          customer_id := inp.customer_id, aa_request := inp.aa_request,
          aa_response := inp.aa_response, scopes := inp.scopes, status := inp.status,
          expires_at := inp.expires_at, version := inp.version, parent_id := inp.parent_id },
      version := inp.version, parent_id := inp.parent_id, expires_at := inp.expires_at }
  (rec0, { recs := st.recs ++ [rec0], nextId := st.nextId + 1 })

/-- The `updates` argument of `createNewVersion`; `none` models an absent
property. -/
structure ConsentUpdates where
  aa_response : Option String
  scopes : Option (List String)
  status : Option String
  fip_id : Option String
  expires_at : Option Int
deriving DecidableEq

/-- JS `updates.x || this.x` for a string-valued field (an absent or
empty update falls back to the old value). -/
def jsOrStr (upd : Option String) (old : String) : String :=
  match upd with
  | some v => if v = "" then old else v
  | none => old

/-- JS `updates.x || this.x` for a nullable string field. -/
def jsOrOptStr (upd : Option String) (old : Option String) : Option String :=
  match upd with
  | some v => if v = "" then old else some v
  | none => old

/-- Embeds `ConsentRecord.prototype.createNewVersion`: insert a fresh
record carrying the updated fields, `version = this.version + 1`,
`parent_id = this.id` and the suffixed `consent_id`. -/
def createNewVersion {H : Type} (hash : HashedFields → H) (r : CRec H) (upd : ConsentUpdates)
    (st : ConsentStore H) : CRec H × ConsentStore H :=
  createRecord hash
    { consent_id := r.consent_id ++ "_v" ++ toString (r.version + 1),
      consent_handle := r.consent_handle,
      user_id := r.user_id,
      customer_id := r.customer_id,
      aa_request := r.aa_request,
      aa_response := jsOrOptStr upd.aa_response r.aa_response,
      scopes := upd.scopes.getD r.scopes,
      status := jsOrStr upd.status r.status,
      purpose_code := r.purpose_code,
      fip_id := jsOrOptStr upd.fip_id r.fip_id,
      version := r.version + 1,
      parent_id := some r.id,
      expires_at := upd.expires_at.getD r.expires_at } st

/-- SQL `LIKE` matching: `%` matches any sequence, `_` any single
character, every other pattern character matches itself. -/
def likeMatch : List Char → List Char → Bool
  | [], s => s.isEmpty
  | p :: ps, s =>
    if p = '%' then
      match s with
      | [] => likeMatch ps []
      | c :: cs => likeMatch ps (c :: cs) || likeMatch (p :: ps) cs
    else
      match s with
      | [] => false
      | c :: cs => (p = '_' || p = c) && likeMatch ps cs
termination_by pat s => pat.length + s.length

/-- The `WHERE` predicate of `ConsentRecord.getHistory`: `consent_id =
consentId OR consent_id LIKE consentId || '_v%'`. -/
def historyPred (consentId : String) {H : Type} (r : CRec H) : Bool :=
  r.consent_id = consentId || likeMatch (consentId ++ "_v%").data r.consent_id.data

/-- Stable insertion into a version-sorted list (`ORDER BY version ASC`). -/
def insertByVersion {H : Type} (r : CRec H) : List (CRec H) → List (CRec H)
  | [] => [r]
  | x :: xs => if r.version < x.version then r :: x :: xs else x :: insertByVersion r xs

/-- Sort by ascending version. -/
def sortByVersion {H : Type} : List (CRec H) → List (CRec H)
  | [] => []
  | x :: xs => insertByVersion x (sortByVersion xs)

/-- Embeds `ConsentRecord.getHistory`: filter on the original id or the
suffixed pattern, ordered by version ascending. -/
def getHistory {H : Type} (consentId : String) (st : ConsentStore H) : List (CRec H) :=
  sortByVersion (st.recs.filter (historyPred consentId))

/-- One step of the version chain: apply `createNewVersion` to the latest
record. -/
def chainStep {H : Type} (hash : HashedFields → H) (acc : ConsentStore H × CRec H)
    (u : ConsentUpdates) : ConsentStore H × CRec H :=
  ((createNewVersion hash acc.2 u acc.1).2, (createNewVersion hash acc.2 u acc.1).1)

/-- Iterated versioning: create the base record in an empty store, then
apply `createNewVersion` for each update, always on the latest record
(the chain of one logical consent). -/
def consentChain {H : Type} (hash : HashedFields → H) (base : ConsentInput)
    (upds : List ConsentUpdates) : ConsentStore H × CRec H :=
  let first := createRecord hash base ⟨[], 0⟩
  upds.foldl (chainStep hash) (first.2, first.1)

/-! ## Concrete fixtures used by the claims -/

/-- A trivial stand-in for the engine's `Date.parse` fallback: every
concrete date below matches one of the explicit patterns, so the fallback
is never consulted; theorems quantify over the fallback wherever it could
matter. -/
def fbNone : String → Option JsDate := fun _ => none

/-- The headers of the documented sample CSV after lower-casing. -/
def hdrs0 : List String := ["date", "description", "debit", "credit", "balance", "reference"]

/-- Build one sample row object. -/
def mkRow6 (d n de cr ba re : String) : Row :=
  [("date", d), ("description", n), ("debit", de), ("credit", cr), ("balance", ba),
   ("reference", re)]

/-- Row 1 of the sample CSV. -/
def row1 : Row := mkRow6 "01-11-2024" "SALARY CREDIT NOV 2024" "" "50000.00" "150000.00" "SAL001"

/-- Row 2 of the sample CSV. -/
def row2 : Row := mkRow6 "02-11-2024" "UPI-SWIGGY-ORDER123" "500.00" "" "149500.00" "UPI001"

/-- Row 3 of the sample CSV. -/
def row3 : Row := mkRow6 "03-11-2024" "NEFT-RENT PAYMENT" "15000.00" "" "134500.00" "NEFT001"

/-- Row 4 of the sample CSV. -/
def row4 : Row := mkRow6 "05-11-2024" "ATM WITHDRAWAL" "5000.00" "" "129500.00" "ATM001"

/-- Row 5 of the sample CSV. -/
def row5 : Row := mkRow6 "10-11-2024" "UPI-AMAZON PAY" "2500.00" "" "127000.00" "UPI002"

/-- Row 6 of the sample CSV. -/
def row6 : Row := mkRow6 "15-11-2024" "INTEREST CREDIT" "" "125.50" "127125.50" "INT001"

/-- The six retained rows of the sample CSV. -/
def rows0 : List Row := [row1, row2, row3, row4, row5, row6]

/-- The column mapping detected on the sample headers.  Note
`credit = "description"`: the credit alias `"cr"` is a substring of
`"description"`, which is scanned before the `"credit"` header. -/
def mapping0 : ColumnMapping :=
  ⟨some "date", some "description", some "debit", some "description", some "balance",
   some "reference"⟩

/-- Validation error reported for sample row 1. -/
def err1 : String := "Row 1: Both debit and credit are zero or invalid"

/-- Validation error reported for sample row 6. -/
def err6 : String := "Row 6: Both debit and credit are zero or invalid"

/-- The normalized record the pipeline emits for sample row 2. -/
def txn2 (uid : String) : CSVTxn :=
  { txn_id := "UPI001", user_id := uid, consent_id := none, date := ⟨2024, 10, 2⟩,
    amount := 500, type := "DEBIT", merchant := some "SWIGGY", category := "Food",
    subcategory := "Dining", source_type := "BANK_ACCOUNT", source_account := none,
    mode := "UPI", reference := "UPI001", narration := "UPI-SWIGGY-ORDER123",
    balance := some 149500, currency := "INR", raw_data := row2 }

/-- The normalized record the pipeline emits for sample row 3. -/
def txn3 (uid : String) : CSVTxn :=
  { txn_id := "NEFT001", user_id := uid, consent_id := none, date := ⟨2024, 10, 3⟩,
    amount := 15000, type := "DEBIT", merchant := some "NEFT", category := "Housing",
    subcategory := "Rent", source_type := "BANK_ACCOUNT", source_account := none,
    mode := "NEFT", reference := "NEFT001", narration := "NEFT-RENT PAYMENT",
    balance := some 134500, currency := "INR", raw_data := row3 }

/-- The normalized record the pipeline emits for sample row 4. -/
def txn4 (uid : String) : CSVTxn :=
  { txn_id := "ATM001", user_id := uid, consent_id := none, date := ⟨2024, 10, 5⟩,
    amount := 5000, type := "DEBIT", merchant := some "ATM WITHDRAWAL", category := "Cash",
    subcategory := "ATM", source_type := "BANK_ACCOUNT", source_account := none,
    mode := "ATM", reference := "ATM001", narration := "ATM WITHDRAWAL",
    balance := some 129500, currency := "INR", raw_data := row4 }

/-- The normalized record the pipeline emits for sample row 5. -/
def txn5 (uid : String) : CSVTxn :=
  { txn_id := "UPI002", user_id := uid, consent_id := none, date := ⟨2024, 10, 10⟩,
    amount := 2500, type := "DEBIT", merchant := some "UPI", category := "Shopping",
    subcategory := "Online", source_type := "BANK_ACCOUNT", source_account := none,
    mode := "UPI", reference := "UPI002", narration := "UPI-AMAZON PAY",
    balance := some 127000, currency := "INR", raw_data := row5 }

/-- The transactions the pipeline emits on the sample CSV. -/
def sampleTxns (uid : String) : List CSVTxn := [txn2 uid, txn3 uid, txn4 uid, txn5 uid]

/-- The full result of parsing the sample CSV: four transactions (rows 1
and 6, the credit rows, fail validation because the credit column maps to
the description column), two row errors, and totals 0 / 23000. -/
def sampleResult (uid : String) : CSVParse :=
  { transactions := sampleTxns uid, errors := [err1, err6],
    summary := ⟨6, 4, 2, 0, 23000⟩ }

/-- The sample CSV with one malformed data line inserted (2 fields
instead of 6). -/
def sampleCSVWithShortRow : String :=
  "Date,Description,Debit,Credit,Balance,Reference\n01-11-2024,SALARY CREDIT NOV 2024,,50000.00,150000.00,SAL001\n02-11-2024,UPI-SWIGGY-ORDER123,500.00,,149500.00,UPI001\n03-11-2024,NEFT-RENT PAYMENT,15000.00,,134500.00,NEFT001\n16-11-2024,MYSTERY ROW\n05-11-2024,ATM WITHDRAWAL,5000.00,,129500.00,ATM001\n10-11-2024,UPI-AMAZON PAY,2500.00,,127000.00,UPI002\n15-11-2024,INTEREST CREDIT,,125.50,127125.50,INT001"

/-- Base consent input for the C2 witness. -/
def baseW : ConsentInput :=
  { consent_id := "CONSENT1", consent_handle := none, user_id := "U", customer_id := "M",
    aa_request := "req", aa_response := none, scopes := [], status := "PENDING",
    purpose_code := none, fip_id := none, version := 1, parent_id := none, expires_at := 0 }

/-- Status update for the C2 witness. -/
def updW : ConsentUpdates :=
  { aa_response := none, scopes := none, status := some "APPROVED", fip_id := none,
    expires_at := none }

/-- A concrete record for the C3 witness, hashed with the identity. -/
def cRecW : CRec HashedFields :=
  { id := 0, consent_id := "C1", consent_handle := none, user_id := "U", customer_id := "M",
    aa_request := "req", aa_response := none, scopes := ["FIN"], status := "PENDING",
    purpose_code := none, fip_id := none,
    data_hash := ⟨"C1", "U", "M", "req", none, ["FIN"], "PENDING", 0, 1, none⟩,
    version := 1, parent_id := none, expires_at := 0 }

/-- The same record with its `status` field tampered. -/
def cRecT : CRec HashedFields :=
  { cRecW with status := "APPROVED" }

/-- A concrete AA transaction with a negative source amount. -/
def aaTxnNeg : AATxn :=
  { txnId := "TX1", type := "DEBIT", mode := "UPI", amount := "-500.00",
    currentBalance := some "1000.00", transactionTimestamp := "2024-11-25T10:30:00Z",
    narration := "TEST NARRATION", reference := "R1" }

/-- A concrete AA account holding `aaTxnNeg`. -/
def aaAccountNeg : AAAccount :=
  { type := some "SAVINGS", currency := some "INR", Transactions := some ⟨some [aaTxnNeg]⟩ }

/-- A concrete AA data block for the account. -/
def aaDataNeg : AADataBlock :=
  { maskedAccNumber := some "XXXX1234", Account := some aaAccountNeg }

/-- A concrete AA response wrapping `aaTxnNeg`. -/
def aaRespNeg : AAResponse :=
  { FI := some [{ fipId := some "FIP1", data := some [aaDataNeg] }] }

/-! ## Helper lemmas -/

/-- The amount parser never returns a negative value (`Math.abs` plus the
zero fallbacks). -/
theorem parseAmount_nonneg (s : String) : 0 ≤ parseAmount s := by
  unfold parseAmount
  split
  · exact le_refl 0
  · cases h : jsParseFloat (cleanAmount s) with
    | none => simp [h]
    | some q =>
      simp only [h]
      unfold jsAbs
      by_cases hq : q < 0
      · simp only [hq, if_pos]
        linarith
      · simp only [hq, if_neg, not_false_iff]
        linarith [not_lt.mp hq]

/-- The counters of `saveTransactions`: every record of the batch passes
through `upsert`, which always succeeds, so `saved` grows by the batch
length and nothing else changes. -/
theorem saveTransactions_result {α : Type} (tid uid : α → String) (batch : List α)
    (res0 : SaveResult) (db0 : List α) :
    (batch.foldl
        (fun acc txn => ({ acc.1 with saved := acc.1.saved + 1 }, upsertTxn tid uid txn acc.2))
        (res0, db0)).1
      = { res0 with saved := res0.saved + batch.length } := by
  induction batch generalizing res0 db0 with
  | nil => simp
  | cons t ts ih =>
    simp only [List.foldl_cons]
    rw [ih]
    cases res0
    simp only [List.length_cons, SaveResult.mk.injEq]
    exact ⟨by omega, trivial, trivial⟩

/-- The early-return rule loop equals `List.find?`. -/
theorem firstMatchingRule_eq_find (lower : String) (rules : List CatRule) :
    firstMatchingRule lower rules = rules.find? (ruleMatches lower) := by
  induction rules with
  | nil => rfl
  | cons r rs ih =>
    by_cases h : ruleMatches lower r <;> simp [firstMatchingRule, List.find?, h, ih]

/-! ## Claims -/

set_option maxRecDepth 40000

/-- Claim C1.  The spec's idempotence contract does not hold on the code:
`saveTransactions` persists through `Transaction.upsert` with
`conflictFields: ['txn_id', 'user_id']`, an insert-or-update-on-conflict
primitive that never raises `SequelizeUniqueConstraintError`; re-ingesting
a batch therefore reports `saved = N`, `skipped = 0` again (the `skipped`
branch is dead code), and overwrites the stored rows instead of leaving
them untouched.  First conjunct: both the first and the second run of the
same batch report every record as saved and none as skipped.  Second
conjunct: at a concrete failing input, re-ingesting a record whose key
already exists reports `saved = 1, skipped = 0` and replaces the stored
payload. -/
theorem claim_C1 :
    (∀ (α : Type) (tid uid : α → String) (batch db : List α),
      (saveTransactions tid uid batch (saveTransactions tid uid batch db).2).1
          = ⟨batch.length, 0, []⟩ ∧
      (saveTransactions tid uid batch db).1 = ⟨batch.length, 0, []⟩) ∧
    @saveTransactions (String × String × String) (fun r => r.1) (fun r => r.2.1)
        [("T1", "U1", "new")] [("T1", "U1", "old")]
      = (⟨1, 0, []⟩, [("T1", "U1", "new")]) := by
  constructor
  · intro α tid uid batch db
    constructor <;> simp [saveTransactions, saveTransactions_result]
  · decide

/-- Claim C3.  Tamper evidence of consent records, with the SHA-256
digest abstracted as an injective `hash` over exactly the ten serialized
fields: a record whose stored `data_hash` was computed at creation
verifies; a record carrying that same stored hash verifies again iff none
of the ten hashed fields changed — so changing any of them to a different
value makes `verifyIntegrity` return false. -/
theorem claim_C3 {H : Type} [DecidableEq H] (hash : HashedFields → H)
    (hinj : Function.Injective hash) (r rT : CRec H)
    (hcreated : r.data_hash = generateHash hash r) (hsame : rT.data_hash = r.data_hash) :
    verifyIntegrity hash r = true ∧
    (verifyIntegrity hash rT = true ↔ hashedFields rT = hashedFields r) := by
  constructor
  · simp [verifyIntegrity, hcreated]
  · unfold verifyIntegrity
    rw [hsame, hcreated]
    unfold generateHash
    simp only [decide_eq_true_eq]
    constructor
    · intro h
      exact (hinj h).symm
    · intro h
      rw [h]

/-- Witness for C3 at a concrete record and a concrete tampering. -/
theorem claim_C3_witness :
    verifyIntegrity id cRecW = true ∧
    (verifyIntegrity id cRecT = true ↔ hashedFields cRecT = hashedFields cRecW) :=
  claim_C3 id (fun _ _ h => h) cRecW cRecT rfl rfl

/-- Claim C6.  `parseAmount` strips currency symbols, commas and
whitespace, always returns a non-negative value, maps the documented
examples as specified, and returns 0 (not a failure) whenever the cleaned
string does not parse as a number. -/
theorem claim_C6 :
    (∀ s : String, 0 ≤ parseAmount s) ∧
    parseAmount "₹1,500.00" = 1500 ∧
    parseAmount "" = 0 ∧
    (∀ s : String, jsParseFloat (cleanAmount s) = none → parseAmount s = 0) := by
  refine ⟨parseAmount_nonneg, of_decide_eq_true (by with_unfolding_all rfl), rfl, ?_⟩
  intro s h
  unfold parseAmount
  split
  · rfl
  · simp [h]

/-- Witness for C6 at concrete unparseable and parseable inputs. -/
theorem claim_C6_witness : parseAmount "abc" = 0 ∧ (0 : ℚ) ≤ parseAmount "xyz" :=
  ⟨claim_C6.2.2.2 "abc" (of_decide_eq_true (by with_unfolding_all rfl)),
   claim_C6.1 "xyz"⟩

/-- Claim C7.  `categorizeTransaction` returns the category pair of the
first rule of the ordered table one of whose keywords is a substring of
the lower-cased narration, with the default pair for an empty narration
or no match; and the three documented examples classify as specified. -/
theorem claim_C7 :
    (∀ n : String, categorizeTransaction n =
      (if n = "" then ("Other", "Uncategorized")
       else
        match CATEGORY_RULES.find? (ruleMatches (jsToLower n)) with
        | some r => (r.category, r.subcategory)
        | none => ("Other", "Uncategorized"))) ∧
    categorizeTransaction "SALARY CREDIT NOV 2024" = ("Income", "Salary") ∧
    categorizeTransaction "UPI-SWIGGY-ORDER123" = ("Food", "Dining") ∧
    categorizeTransaction "RANDOM TEXT XYZ" = ("Other", "Uncategorized") := by
  refine ⟨fun n => ?_, by decide, by decide, by decide⟩
  unfold categorizeTransaction
  rw [firstMatchingRule_eq_find]

/-- Counterexample for C9: the narration `"-X"` is non-empty, yet
`extractMerchant` returns null — no rail pattern matches and the text
before the first delimiter is empty, so the `|| null` fallback fires. -/
theorem claim_C9_cx : extractMerchant "-X" = none ∧ "-X" ≠ "" := by decide

/-- Claim C9 as amended: `extractMerchant` returns null only when the
narration is empty or when no pattern matched and the text before the
first `-` or `/` delimiter trims to the empty string; every returned
merchant is capped at 100 characters; and the rail-prefix capture works
as documented on the spec's example. -/
theorem claim_C9_amended :
    (∀ n : String, extractMerchant n = none → n = "" ∨ jsTrimList (firstSegment n.data) = []) ∧
    (∀ (n m : String), extractMerchant n = some m → m.length ≤ 100) ∧
    extractMerchant "UPI-AMAZON PAY-PAYMENT123" = some "AMAZON PAY" ∧
    extractMerchant "" = none := by
  refine ⟨?_, ?_, by decide, rfl⟩
  · intro n h
    by_cases hn : n = ""
    · exact Or.inl hn
    · refine Or.inr ?_
      simp only [extractMerchant, if_neg hn] at h
      split at h
      · exact absurd h (by simp)
      · split at h
        · rename_i hseg
          rcases List.take_eq_nil_iff.mp hseg with h100 | hnil
          · exact absurd h100 (by omega)
          · exact hnil
        · exact absurd h (by simp)
  · intro n m h
    by_cases hn : n = ""
    · simp [extractMerchant, hn] at h
    · simp only [extractMerchant, if_neg hn] at h
      split at h
      · rename_i cap heq
        have hm : m = String.mk ((jsTrimList cap).take 100) := (Option.some.injEq _ _ ▸ h).symm
        subst hm
        show ((jsTrimList cap).take 100).length ≤ 100
        simp [List.length_take]
      · split at h
        · exact absurd h (by simp)
        · have hm : m = String.mk ((jsTrimList (firstSegment n.data)).take 100) :=
            (Option.some.injEq _ _ ▸ h).symm
          subst hm
          show ((jsTrimList (firstSegment n.data)).take 100).length ≤ 100
          simp [List.length_take]

/-- Witness for C9's amended claim at concrete narrations. -/
theorem claim_C9_amended_witness :
    ("-X" = "" ∨ jsTrimList (firstSegment ("-X").data) = []) ∧ "AMAZON PAY".length ≤ 100 :=
  ⟨claim_C9_amended.1 "-X" (by decide),
   claim_C9_amended.2.1 "UPI-AMAZON PAY-PAYMENT123" "AMAZON PAY" claim_C9_amended.2.2.1⟩

/-- Counterexample for C8: the aggregator path stores
`parseFloat(txn.amount)` unchecked, so a source amount of `"-500.00"`
is emitted as the negative amount −500 — not strictly positive. -/
theorem claim_C8_cx :
    ((parseBankStatement (some aaRespNeg) "u1" "c1").map (fun t => t.amount))
        = [some (-500)] ∧
    ¬ ((0 : ℚ) < -500) :=
  ⟨of_decide_eq_true (by with_unfolding_all rfl), by norm_num⟩

/-- Validation implies the row's debit and credit are not both zero. -/
theorem validateRow_amounts_nonzero (fb : String → Option JsDate) (row : Row)
    (mapping : ColumnMapping) (i : Nat)
    (hv : (validateRow fb row mapping i).1 = true) :
    ¬(parseAmount (rowValue row mapping.debit) = 0 ∧
      parseAmount (rowValue row mapping.credit) = 0) := by
  intro hc
  simp only [validateRow, hc, and_self, if_true, List.isEmpty_eq_true, List.append_eq_nil,
    if_pos] at hv
  exact absurd hv.2 (by simp)

/-- A transaction built from a validated row has a strictly positive
amount and a CREDIT/DEBIT direction. -/
theorem csvRowTxn_pos (fb : String → Option JsDate) (uid : String) (acc : Option String)
    (mapping : ColumnMapping) (i : Nat) (row : Row) (t : CSVTxn)
    (hv : (validateRow fb row mapping i).1 = true)
    (ht : csvRowTxn fb uid acc mapping i row = some t) :
    0 < t.amount ∧ (t.type = "CREDIT" ∨ t.type = "DEBIT") := by
  have hnz := validateRow_amounts_nonzero fb row mapping i hv
  simp only [csvRowTxn] at ht
  split at ht
  · exact absurd ht (by simp)
  · have hteq : t = _ := (Option.some.injEq _ _ ▸ ht).symm
    subst hteq
    constructor
    · show 0 < if 0 < parseAmount (rowValue row mapping.credit)
          then parseAmount (rowValue row mapping.credit)
          else parseAmount (rowValue row mapping.debit)
      by_cases h : 0 < parseAmount (rowValue row mapping.credit)
      · simp [h]
      · have hc0 : parseAmount (rowValue row mapping.credit) = 0 :=
          le_antisymm (not_lt.mp h) (parseAmount_nonneg _)
        have hd : parseAmount (rowValue row mapping.debit) ≠ 0 := fun hd0 => hnz ⟨hd0, hc0⟩
        have := lt_of_le_of_ne (parseAmount_nonneg (rowValue row mapping.debit)) (Ne.symm hd)
        simpa [h] using this
    · by_cases h : 0 < parseAmount (rowValue row mapping.credit)
      · exact Or.inl (by simp [h])
      · exact Or.inr (by simp [h])

/-- Invariant of the `rows.forEach` fold: every collected transaction has
a positive amount and a CREDIT/DEBIT direction. -/
theorem csvFold_invariant (fb : String → Option JsDate) (uid : String) (acc : Option String)
    (mapping : ColumnMapping) (l : List (Nat × Row)) (acc0 : List CSVTxn × List String)
    (h0 : ∀ t ∈ acc0.1, 0 < t.amount ∧ (t.type = "CREDIT" ∨ t.type = "DEBIT")) :
    ∀ t ∈ (l.foldl (csvStep fb uid acc mapping) acc0).1,
      0 < t.amount ∧ (t.type = "CREDIT" ∨ t.type = "DEBIT") := by
  induction l generalizing acc0 with
  | nil => exact h0
  | cons ir rest ih =>
    refine ih (csvStep fb uid acc mapping acc0 ir) ?_
    intro t ht
    simp only [csvStep] at ht
    split at ht
    · rename_i hv
      split at ht
      · rename_i t0 heq
        rcases List.mem_append.mp ht with hin | hin
        · exact h0 t hin
        · have : t = t0 := by simpa using hin
          subst this
          exact csvRowTxn_pos fb uid acc mapping ir.1 ir.2 t hv heq
      · exact h0 t ht
    · exact h0 t ht

/-- Claim C8 as amended: on the CSV path every emitted transaction has a
strictly positive amount and its direction field is CREDIT exactly when
the parsed credit amount is positive (DEBIT otherwise); the aggregator
path does not enforce positivity (see the counterexample). -/
theorem claim_C8_amended :
    (∀ (fb : String → Option JsDate) (content uid : String) (acc : Option String)
        (res : CSVParse), parseCSVStatement fb content uid acc = Except.ok res →
        ∀ t ∈ res.transactions, 0 < t.amount ∧ (t.type = "CREDIT" ∨ t.type = "DEBIT")) ∧
    (∀ (fb : String → Option JsDate) (uid : String) (acc : Option String)
        (mapping : ColumnMapping) (i : Nat) (row : Row) (t : CSVTxn),
        csvRowTxn fb uid acc mapping i row = some t →
        (t.type = "CREDIT" ↔ 0 < parseAmount (rowValue row mapping.credit))) := by
  constructor
  · intro fb content uid acc res hres t htm
    unfold parseCSVStatement at hres
    split at hres
    · exact absurd hres (by simp)
    · split at hres
      · exact absurd hres (by simp)
      · simp only [Except.ok.injEq] at hres
        subst hres
        exact csvFold_invariant fb uid acc _ _ ([], []) (by simp) t htm
  · intro fb uid acc mapping i row t ht
    simp only [csvRowTxn] at ht
    split at ht
    · exact absurd ht (by simp)
    · have hteq : t = _ := (Option.some.injEq _ _ ▸ ht).symm
      subst hteq
      by_cases h : 0 < parseAmount (rowValue row mapping.credit)
      · simp [h]
      · simp [h]

/-- A non-empty `String.mk` is not the empty string. -/
theorem stringMk_ne_empty (c : Char) (l : List Char) : String.mk (c :: l) ≠ "" := by
  intro h
  have h2 : c :: l = ([] : List Char) := congrArg String.data h
  exact absurd h2 (by simp)

/-- A decimal digit is not a date separator. -/
theorem digit_not_sep (c : Char) (h : c.isDigit = true) : isRailSep c = false := by
  by_cases h1 : c = '-'
  · subst h1; exact absurd h (by decide)
  · by_cases h2 : c = '/'
    · subst h2; exact absurd h (by decide)
    · simp [isRailSep, h1, h2]

/-- Counterexample for C5: a valid calendar date of year 99 written with
four digits parses to year 1999, not 99 — the JS `Date` constructor maps
year arguments 0 to 99 to 1900 + year. -/
theorem claim_C5_cx :
    (parseDate (fun _ => none) "01-11-0099").map (fun d => d.year) = some 1999 ∧
    (1999 : Int) ≠ 99 := by decide

/-- Claim C5 as amended: for every date written `DD-MM-YYYY` (or with `/`
separators) or `YYYY-MM-DD` whose year is at least 100, `parseDate`
returns exactly that calendar date (as a `JsDate` with 0-based month
index), the two spellings agreeing; years 0–99 spelled with four digits
are shifted to 1900+year by the `Date` constructor (see the
counterexample).  For `DD-MM-YY`, the year resolves to 1900+YY when
YY > 50 and 2000+YY otherwise.  Patterns are tried in the source order,
the digit-shape of the three patterns making at most one applicable. -/
theorem claim_C5_amended (fb : String → Option JsDate)
    (d1 d2 m1 m2 y1 y2 y3 y4 a b s1 s2 : Char)
    (hd1 : d1.isDigit = true) (hd2 : d2.isDigit = true)
    (hm1 : m1.isDigit = true) (hm2 : m2.isDigit = true)
    (hy1 : y1.isDigit = true) (hy2 : y2.isDigit = true)
    (hy3 : y3.isDigit = true) (hy4 : y4.isDigit = true)
    (ha : a.isDigit = true) (hb : b.isDigit = true)
    (hs1 : isRailSep s1 = true) (hs2 : isRailSep s2 = true)
    (hm : 1 ≤ digitsVal [m1, m2] ∧ digitsVal [m1, m2] ≤ 12)
    (hd : 1 ≤ digitsVal [d1, d2] ∧ digitsVal [d1, d2] ≤ 31)
    (hy : 100 ≤ digitsVal [y1, y2, y3, y4]) :
    parseDate fb (String.mk [d1, d2, s1, m1, m2, s2, y1, y2, y3, y4])
        = some ⟨(digitsVal [y1, y2, y3, y4] : Int), (digitsVal [m1, m2] : Int) - 1,
            (digitsVal [d1, d2] : Int)⟩ ∧
    parseDate fb (String.mk [y1, y2, y3, y4, s1, m1, m2, s2, d1, d2])
        = some ⟨(digitsVal [y1, y2, y3, y4] : Int), (digitsVal [m1, m2] : Int) - 1,
            (digitsVal [d1, d2] : Int)⟩ ∧
    parseDate fb (String.mk [d1, d2, s1, m1, m2, s2, a, b])
        = some ⟨(if 50 < digitsVal [a, b] then 1900 + (digitsVal [a, b] : Int)
              else 2000 + (digitsVal [a, b] : Int)),
            (digitsVal [m1, m2] : Int) - 1, (digitsVal [d1, d2] : Int)⟩ := by
  have hyInt : ¬(0 ≤ (digitsVal [y1, y2, y3, y4] : Int) ∧
      (digitsVal [y1, y2, y3, y4] : Int) ≤ 99) := by
    omega
  refine ⟨?_, ?_, ?_⟩
  · unfold parseDate
    rw [if_neg (stringMk_ne_empty _ _)]
    have hmatch : matchDDMMYYYY [d1, d2, s1, m1, m2, s2, y1, y2, y3, y4]
        = some (digitsVal [d1, d2], digitsVal [m1, m2], digitsVal [y1, y2, y3, y4]) := by
      simp [matchDDMMYYYY, hd1, hd2, hs1, hm1, hm2, hs2, hy1, hy2, hy3, hy4]
    dsimp only
    rw [hmatch]
    simp [mkJsDate, hyInt]
    omega
  · unfold parseDate
    rw [if_neg (stringMk_ne_empty _ _)]
    have h1 : matchDDMMYYYY [y1, y2, y3, y4, s1, m1, m2, s2, d1, d2] = none := by
      simp [matchDDMMYYYY, digit_not_sep y3 hy3]
    have h2 : matchYYYYMMDD [y1, y2, y3, y4, s1, m1, m2, s2, d1, d2]
        = some (digitsVal [y1, y2, y3, y4], digitsVal [m1, m2], digitsVal [d1, d2]) := by
      simp [matchYYYYMMDD, hd1, hd2, hs1, hm1, hm2, hs2, hy1, hy2, hy3, hy4]
    dsimp only
    rw [h1, h2]
    simp [mkJsDate, hyInt]
    omega
  · unfold parseDate
    rw [if_neg (stringMk_ne_empty _ _)]
    have h1 : matchDDMMYYYY [d1, d2, s1, m1, m2, s2, a, b] = none := rfl
    have h2 : matchYYYYMMDD [d1, d2, s1, m1, m2, s2, a, b] = none := rfl
    have h3 : matchDDMMYY [d1, d2, s1, m1, m2, s2, a, b]
        = some (digitsVal [d1, d2], digitsVal [m1, m2], digitsVal [a, b]) := by
      simp [matchDDMMYY, hd1, hd2, hs1, hm1, hm2, hs2, ha, hb]
    dsimp only
    rw [h1, h2, h3]
    by_cases hab : 50 < digitsVal [a, b]
    · have : ¬(0 ≤ 1900 + (digitsVal [a, b] : Int) ∧ 1900 + (digitsVal [a, b] : Int) ≤ 99) := by
        omega
      simp [mkJsDate, hab, this]
    · have : ¬(0 ≤ 2000 + (digitsVal [a, b] : Int) ∧ 2000 + (digitsVal [a, b] : Int) ≤ 99) := by
        omega
      simp [mkJsDate, hab, this]

/-- Witness for C5's amended claim at the spec's example date. -/
theorem claim_C5_amended_witness :
    parseDate (fun _ => none) "01-11-2024" = some ⟨2024, 10, 1⟩ ∧
    parseDate (fun _ => none) "2024-11-01" = some ⟨2024, 10, 1⟩ := by
  have h := claim_C5_amended (fun _ => none) '0' '1' '1' '1' '2' '0' '2' '4' '2' '4' '-' '-'
    rfl rfl rfl rfl rfl rfl rfl rfl rfl rfl rfl rfl ⟨by decide, by decide⟩
    ⟨by decide, by decide⟩ (by decide)
  exact ⟨h.1, h.2.1⟩

/-! ## LIKE-pattern lemmas for C2 -/

/-- A lone `%` matches every string. -/
theorem likeMatch_percent_any (t : List Char) : likeMatch ['%'] t = true := by
  induction t with
  | nil => simp [likeMatch]
  | cons c cs ih => simp [likeMatch, ih]

/-- A `%` may match the empty sequence. -/
theorem likeMatch_percent_intro (ps s : List Char) (h : likeMatch ps s = true) :
    likeMatch ('%' :: ps) s = true := by
  cases s with
  | nil => simpa [likeMatch] using h
  | cons c cs => simp [likeMatch, h]

/-- Every string matches itself as a pattern. -/
theorem likeMatch_refl (s : List Char) : likeMatch s s = true := by
  induction s with
  | nil => simp [likeMatch]
  | cons c cs ih =>
    by_cases hc : c = '%'
    · subst hc
      have h2 : likeMatch ('%' :: cs) cs = true := likeMatch_percent_intro cs cs ih
      simp [likeMatch, h2]
    · simp [likeMatch, hc, ih]

/-- Appending `%` to a pattern lets it match any extension of a string
the pattern already matches (fuel-indexed strong induction). -/
theorem likeMatch_append_percent_fuel :
    ∀ (n : Nat) (p s : List Char), p.length + s.length ≤ n →
      ∀ t, likeMatch p s = true → likeMatch (p ++ ['%']) (s ++ t) = true := by
  intro n
  induction n with
  | zero =>
    intro p s hle t h
    have hp : p = [] := List.length_eq_zero.mp (by omega)
    have hs : s = [] := List.length_eq_zero.mp (by omega)
    subst hp
    subst hs
    simpa using likeMatch_percent_any t
  | succ n ih =>
    intro p s hle t h
    match p with
    | [] =>
      have hs : s = [] := by simpa [likeMatch, List.isEmpty_iff] using h
      subst hs
      simpa using likeMatch_percent_any t
    | p0 :: ps =>
      by_cases hp : p0 = '%'
      · subst hp
        cases s with
        | nil =>
          have h' : likeMatch ps [] = true := by simpa [likeMatch] using h
          have hrec := ih ps [] (by simp at hle ⊢; omega) t h'
          simp only [List.nil_append] at hrec ⊢
          exact likeMatch_percent_intro _ _ hrec
        | cons c cs =>
          have h' : likeMatch ps (c :: cs) = true ∨ likeMatch ('%' :: ps) cs = true := by
            simpa [likeMatch] using h
          rcases h' with h1 | h2
          · have hrec := ih ps (c :: cs) (by simp at hle ⊢; omega) t h1
            exact likeMatch_percent_intro _ _ (by simpa using hrec)
          · have hrec := ih ('%' :: ps) cs (by simp at hle ⊢; omega) t h2
            simp only [List.cons_append] at hrec ⊢
            simp [likeMatch]
            exact Or.inr (by simpa using hrec)
      · cases s with
        | nil => simp [likeMatch, hp] at h
        | cons c cs =>
          have h' : (p0 = '_' ∨ p0 = c) ∧ likeMatch ps cs = true := by
            simpa [likeMatch, hp] using h
          have hrec := ih ps cs (by simp at hle ⊢; omega) t h'.2
          simp [likeMatch, hp, hrec]
          exact h'.1

/-- A pattern `p ++ "%"` matches every string extending `p`. -/
theorem likeMatch_prefix_percent (p t : List Char) :
    likeMatch (p ++ ['%']) (p ++ t) = true :=
  likeMatch_append_percent_fuel (p.length + p.length) p p (le_refl _) t (likeMatch_refl p)

/-- Concatenation of strings acts as `++` on the underlying character
lists. -/
theorem string_data_append (a b : String) : (a ++ b).data = a.data ++ b.data := by
  cases a
  cases b
  rfl

/-- String concatenation is associative. -/
theorem string_append_assoc (a b c : String) : a ++ b ++ c = a ++ (b ++ c) := by
  cases a
  cases b
  cases c
  show String.mk _ = String.mk _
  simp [string_data_append]

/-- Sorting an already strictly version-sorted list is the identity. -/
theorem sortByVersion_of_sorted {H : Type} (l : List (CRec H))
    (h : l.Pairwise (fun x y => x.version < y.version)) : sortByVersion l = l := by
  induction l with
  | nil => rfl
  | cons x xs ih =>
    rcases List.pairwise_cons.mp h with ⟨hx, hxs⟩
    show insertByVersion x (sortByVersion xs) = x :: xs
    rw [ih hxs]
    cases xs with
    | nil => rfl
    | cons y ys => simp [insertByVersion, hx y (List.mem_cons_self _ _)]

/-- Invariant of the version-chain fold: every record of the store keeps
the original consent id or a `_v`-suffixed extension of it, the stored
versions are exactly `1, …, n` in insertion order, and each update adds
one record. -/
theorem chainFold_spec {H : Type} (hash : HashedFields → H) (C : String) :
    ∀ (upds : List ConsentUpdates) (st : ConsentStore H) (cur : CRec H),
      (∀ r ∈ st.recs, r.consent_id = C ∨ ∃ tl, r.consent_id = C ++ "_v" ++ tl) →
      (cur.consent_id = C ∨ ∃ tl, cur.consent_id = C ++ "_v" ++ tl) →
      st.recs.map (fun r => r.version) = List.range' 1 st.recs.length →
      cur.version = st.recs.length →
      (∀ r ∈ (upds.foldl (chainStep hash) (st, cur)).1.recs,
          r.consent_id = C ∨ ∃ tl, r.consent_id = C ++ "_v" ++ tl) ∧
      (upds.foldl (chainStep hash) (st, cur)).1.recs.map (fun r => r.version)
          = List.range' 1 (upds.foldl (chainStep hash) (st, cur)).1.recs.length ∧
      (upds.foldl (chainStep hash) (st, cur)).1.recs.length
          = st.recs.length + upds.length := by
  intro upds
  induction upds with
  | nil =>
    intro st cur h1 h2 h3 h4
    exact ⟨h1, h3, by simp⟩
  | cons u us ih =>
    intro st cur h1 h2 h3 h4
    rw [List.foldl_cons]
    have hnewid : (createNewVersion hash cur u st).1.consent_id
        = cur.consent_id ++ "_v" ++ toString (cur.version + 1) := rfl
    have hpfx : (createNewVersion hash cur u st).1.consent_id = C ∨
        ∃ tl, (createNewVersion hash cur u st).1.consent_id = C ++ "_v" ++ tl := by
      rcases h2 with hC | ⟨tl, htl⟩
      · exact Or.inr ⟨toString (cur.version + 1), by rw [hnewid, hC]⟩
      · refine Or.inr ⟨tl ++ ("_v" ++ toString (cur.version + 1)), ?_⟩
        rw [hnewid, htl]
        simp [string_append_assoc]
    have hsteprecs : (chainStep hash (st, cur) u).1.recs
        = st.recs ++ [(createNewVersion hash cur u st).1] := rfl
    have hstepcur : (chainStep hash (st, cur) u).2 = (createNewVersion hash cur u st).1 := rfl
    have hv1 : (createNewVersion hash cur u st).1.version = cur.version + 1 := rfl
    have hres := ih (chainStep hash (st, cur) u).1 (chainStep hash (st, cur) u).2
      (by
        rw [hsteprecs]
        intro r hr
        rcases List.mem_append.mp hr with hin | hin
        · exact h1 r hin
        · have : r = (createNewVersion hash cur u st).1 := by simpa using hin
          subst this
          exact hpfx)
      (by rw [hstepcur]; exact hpfx)
      (by
        rw [hsteprecs]
        rw [List.map_append, h3, List.length_append]
        simp only [List.map_cons, List.map_nil, List.length_cons, List.length_nil, hv1, h4]
        rw [show st.recs.length + (0 + 1) = st.recs.length + 1 by omega]
        rw [List.range'_concat]
        simp [Nat.add_comm])
      (by
        rw [hstepcur, hsteprecs, hv1, h4]
        simp)
    refine ⟨hres.1, hres.2.1, ?_⟩
    rw [hres.2.2, hsteprecs]
    simp
    omega

/-- Claim C2.  Consent versioning is append-only with a linked chain:
`createNewVersion` produces a record with `version = r.version + 1` and
`parent_id = r.id` while only appending to the store (every prior record,
`r` included, is untouched), and for a chain built from a version-1 base
record, `getHistory` applied to the original consent id returns exactly
all stored versions of that consent ordered by version ascending (oldest
first, versions `1, …, n`). -/
theorem claim_C2 {H : Type} (hash : HashedFields → H) :
    (∀ (r : CRec H) (upd : ConsentUpdates) (st : ConsentStore H),
      (createNewVersion hash r upd st).1.version = r.version + 1 ∧
      (createNewVersion hash r upd st).1.parent_id = some r.id ∧
      (createNewVersion hash r upd st).2.recs
          = st.recs ++ [(createNewVersion hash r upd st).1]) ∧
    (∀ (base : ConsentInput) (upds : List ConsentUpdates), base.version = 1 →
      getHistory base.consent_id (consentChain hash base upds).1
          = (consentChain hash base upds).1.recs ∧
      (consentChain hash base upds).1.recs.map (fun r => r.version)
          = List.range' 1 (upds.length + 1)) := by
  constructor
  · intro r upd st
    exact ⟨rfl, rfl, rfl⟩
  · intro base upds hv
    have hbase : (createRecord hash base ⟨[], 0⟩).1.consent_id = base.consent_id := rfl
    have hbasev : (createRecord hash base ⟨[], 0⟩).1.version = base.version := rfl
    have hrecs : (createRecord hash base ⟨[], 0⟩).2.recs
        = [(createRecord hash base ⟨[], 0⟩).1] := rfl
    have hchain : consentChain hash base upds
        = upds.foldl (chainStep hash)
            ((createRecord hash base ⟨[], 0⟩).2, (createRecord hash base ⟨[], 0⟩).1) := rfl
    have hspec := chainFold_spec hash base.consent_id upds
      (createRecord hash base ⟨[], 0⟩).2 (createRecord hash base ⟨[], 0⟩).1
      (by
        rw [hrecs]
        intro r hr
        have : r = (createRecord hash base ⟨[], 0⟩).1 := by simpa using hr
        subst this
        exact Or.inl hbase)
      (Or.inl hbase)
      (by rw [hrecs]; simp [hbasev, hv])
      (by rw [hrecs]; simp [hbasev, hv])
    rw [hchain]
    have hall := hspec.1
    have hsorted := hspec.2.1
    have hlen := hspec.2.2
    rw [hrecs] at hlen
    simp only [List.length_cons, List.length_nil] at hlen
    constructor
    · unfold getHistory
      have hfilter : (upds.foldl (chainStep hash)
            ((createRecord hash base ⟨[], 0⟩).2, (createRecord hash base ⟨[], 0⟩).1)).1.recs.filter
              (historyPred base.consent_id)
          = (upds.foldl (chainStep hash)
            ((createRecord hash base ⟨[], 0⟩).2, (createRecord hash base ⟨[], 0⟩).1)).1.recs := by
        apply List.filter_eq_self.mpr
        intro r hr
        rcases hall r hr with hC | ⟨tl, htl⟩
        · simp [historyPred, hC]
        · have hdata : r.consent_id.data
              = (base.consent_id ++ "_v").data ++ tl.data := by
            rw [htl, string_data_append]
          have hpat : (base.consent_id ++ "_v%").data
              = (base.consent_id ++ "_v").data ++ ['%'] := by
            rw [show (base.consent_id ++ "_v%") = base.consent_id ++ "_v" ++ "%" by
              rw [string_append_assoc]; rfl]
            rw [string_data_append (base.consent_id ++ "_v") "%"]
          have hl : likeMatch ((base.consent_id ++ "_v%").data) r.consent_id.data = true := by
            rw [hdata, hpat]
            exact likeMatch_prefix_percent _ _
          unfold historyPred
          rw [hl]
          simp
      rw [hfilter]
      apply sortByVersion_of_sorted
      have hp : ((upds.foldl (chainStep hash)
            ((createRecord hash base ⟨[], 0⟩).2, (createRecord hash base ⟨[], 0⟩).1)).1.recs.map
              (fun r => r.version)).Pairwise (fun a b => a < b) := by
        rw [hsorted]
        exact List.pairwise_lt_range' _ _
      exact List.pairwise_map.mp hp
    · rw [hsorted, hlen]
      rw [Nat.add_comm 1 upds.length]

/-! ## Evaluation of the pipeline on the sample CSV -/

/-- Content parsing of the documented sample CSV. -/
theorem sampleContent_parse : parseCSVContent getSampleCSVFormat = .ok (hdrs0, rows0) := rfl

/-- The malformed line is silently dropped: content parsing of the sample
with a 2-field row yields the same headers and rows. -/
theorem sampleContent_parse_short :
    parseCSVContent sampleCSVWithShortRow = .ok (hdrs0, rows0) := rfl

/-- Column detection on the sample headers (note the credit column). -/
theorem sampleMapping : detectColumnMapping hdrs0 = .ok mapping0 := rfl

/-- Fold step on sample row 1 (fails validation: both amounts zero). -/
theorem sampleStep1 (fb : String → Option JsDate) (uid : String) :
    csvStep fb uid none mapping0 ([], []) (0, row1) = ([], [err1]) := by
  with_unfolding_all rfl

/-- Fold step on sample row 2. -/
theorem sampleStep2 (fb : String → Option JsDate) (uid : String) :
    csvStep fb uid none mapping0 ([], [err1]) (1, row2) = ([txn2 uid], [err1]) := by
  with_unfolding_all rfl

/-- Fold step on sample row 3. -/
theorem sampleStep3 (fb : String → Option JsDate) (uid : String) :
    csvStep fb uid none mapping0 ([txn2 uid], [err1]) (2, row3)
      = ([txn2 uid, txn3 uid], [err1]) := by
  with_unfolding_all rfl

/-- Fold step on sample row 4. -/
theorem sampleStep4 (fb : String → Option JsDate) (uid : String) :
    csvStep fb uid none mapping0 ([txn2 uid, txn3 uid], [err1]) (3, row4)
      = ([txn2 uid, txn3 uid, txn4 uid], [err1]) := by
  with_unfolding_all rfl

/-- Fold step on sample row 5. -/
theorem sampleStep5 (fb : String → Option JsDate) (uid : String) :
    csvStep fb uid none mapping0 ([txn2 uid, txn3 uid, txn4 uid], [err1]) (4, row5)
      = (sampleTxns uid, [err1]) := by
  with_unfolding_all rfl

/-- Fold step on sample row 6 (fails validation: both amounts zero). -/
theorem sampleStep6 (fb : String → Option JsDate) (uid : String) :
    csvStep fb uid none mapping0 (sampleTxns uid, [err1]) (5, row6)
      = (sampleTxns uid, [err1, err6]) := by
  with_unfolding_all rfl

set_option maxHeartbeats 2000000

/-- Full evaluation of `parseCSVStatement` on the documented sample CSV,
for an arbitrary fallback date parser and user id. -/
theorem sampleParse (fb : String → Option JsDate) (uid : String) :
    parseCSVStatement fb getSampleCSVFormat uid none = .ok (sampleResult uid) := by
  unfold parseCSVStatement
  rw [sampleContent_parse]
  dsimp only
  rw [sampleMapping]
  dsimp only
  rw [show rows0.enum = [(0, row1), (1, row2), (2, row3), (3, row4), (4, row5), (5, row6)]
    from rfl]
  rw [List.foldl_cons, sampleStep1 fb uid, List.foldl_cons, sampleStep2 fb uid,
    List.foldl_cons, sampleStep3 fb uid, List.foldl_cons, sampleStep4 fb uid,
    List.foldl_cons, sampleStep5 fb uid, List.foldl_cons, sampleStep6 fb uid,
    List.foldl_nil]
  refine congrArg Except.ok ?_
  show CSVParse.mk (sampleTxns uid) [err1, err6] (CSVSummary.mk 6 4 2
      (((sampleTxns uid).filter (fun t => t.type = "CREDIT")).foldl (fun s t => s + t.amount) 0)
      (((sampleTxns uid).filter (fun t => t.type = "DEBIT")).foldl (fun s t => s + t.amount) 0))
    = CSVParse.mk (sampleTxns uid) [err1, err6] (CSVSummary.mk 6 4 2 0 23000)
  refine congrArg _ ?_
  show CSVSummary.mk 6 4 2 0 ((((0 : ℚ) + 500) + 15000) + 5000 + 2500)
    = CSVSummary.mk 6 4 2 0 23000
  congr 1
  norm_num

/-- Claim C4.  The end-to-end property fails on the code: on the output
of `getSampleCSVFormat`, for any fallback date parser and user id, the
parser returns 4 transactions (not 6), 2 row errors (not 0),
`totalCredit = 0` (not 50125.50) and `totalDebit = 23000`.  The root
cause is visible in the second conjunct: the credit alias `"cr"` is a
substring of the header `"description"`, so the credit column maps to
the description column, making both credit rows fail validation with
"Both debit and credit are zero or invalid". -/
theorem claim_C4 :
    (∀ (fb : String → Option JsDate) (uid : String),
      (parseCSVStatement fb getSampleCSVFormat uid none).toOption.map
          (fun r => (r.transactions.length, r.errors.length, r.summary))
        = some (4, 2, ⟨6, 4, 2, 0, 23000⟩)) ∧
    detectColumnMapping hdrs0 = .ok mapping0 := by
  constructor
  · intro fb uid
    rw [sampleParse]
    rfl
  · exact sampleMapping

/-- The length of a `filterMap` counts the elements on which the function
succeeds. -/
theorem length_filterMap_countP {α β : Type} (f : α → Option β) (l : List α) :
    (l.filterMap f).length = l.countP (fun x => (f x).isSome) := by
  induction l with
  | nil => rfl
  | cons a as ih =>
    cases h : f a with
    | none => simp [List.filterMap_cons, h, ih, List.countP_cons]
    | some b => simp [List.filterMap_cons, h, ih, List.countP_cons]

/-- Claim C10.  A data line whose parsed field count differs from the
header's is silently dropped.  First conjunct: the retained row count —
which is what `summary.totalRows` reports — counts exactly the non-empty
data lines whose field count matches the header's, so mismatched lines
are excluded from it (and, contributing no row, from transactions,
errors, `parsed` and `failed` as well).  Second conjunct: inserting a
2-field line into the documented sample yields a result identical in
every component to the sample's own. -/
theorem claim_C10 :
    (∀ (content : String) (hs : List String) (rows : List Row),
      parseCSVContent content = Except.ok (hs, rows) →
      rows.length = ((jsSplitLines (jsTrim content)).drop 1).countP
        (fun ln => !(jsTrim ln == "") && ((parseCSVLine (jsTrim ln)).length == hs.length))) ∧
    (∀ (fb : String → Option JsDate) (uid : String),
      parseCSVStatement fb sampleCSVWithShortRow uid none
        = parseCSVStatement fb getSampleCSVFormat uid none) := by
  constructor
  · intro content hs rows h
    unfold parseCSVContent at h
    dsimp only at h
    split at h
    · exact absurd h (by simp)
    · simp only [Except.ok.injEq, Prod.mk.injEq] at h
      obtain ⟨h1, h2⟩ := h
      subst h1
      rw [← h2]
      rw [length_filterMap_countP]
      apply List.countP_congr
      intro ln _
      by_cases he : jsTrim ln = ""
      · simp [he]
      · by_cases hl : (parseCSVLine (jsTrim ln)).length
            = ((parseCSVLine ((jsSplitLines (jsTrim content)).headD "")).map
                (fun h => jsTrim (jsToLower h))).length
        · simp [he, hl]
        · simp [he, hl]
  · intro fb uid
    unfold parseCSVStatement
    rw [sampleContent_parse_short, sampleContent_parse]

/-- Witness for C10's first conjunct at the documented sample. -/
theorem claim_C10_witness :
    rows0.length = ((jsSplitLines (jsTrim getSampleCSVFormat)).drop 1).countP
      (fun ln => !(jsTrim ln == "") && ((parseCSVLine (jsTrim ln)).length == hdrs0.length)) :=
  claim_C10.1 getSampleCSVFormat hdrs0 rows0 sampleContent_parse

/-- Witness for C2 at a one-update chain hashed with the identity. -/
theorem claim_C2_witness :
    getHistory "CONSENT1" (consentChain id baseW [updW]).1
        = (consentChain id baseW [updW]).1.recs ∧
    (consentChain id baseW [updW]).1.recs.map (fun r => r.version) = List.range' 1 2 :=
  (claim_C2 (id : HashedFields → HashedFields)).2 baseW [updW] rfl

/-- Witness for C8's amended claim: row 2 of the sample CSV yields a
transaction with positive amount and a DEBIT direction matching its zero
parsed credit. -/
theorem claim_C8_amended_witness :
    (0 < (txn2 "u1").amount ∧ ((txn2 "u1").type = "CREDIT" ∨ (txn2 "u1").type = "DEBIT")) ∧
    ((txn2 "u1").type = "CREDIT" ↔ 0 < parseAmount (rowValue row2 mapping0.credit)) :=
  ⟨claim_C8_amended.1 fbNone getSampleCSVFormat "u1" none (sampleResult "u1")
      (sampleParse fbNone "u1") (txn2 "u1") (by simp [sampleResult, sampleTxns]),
   claim_C8_amended.2 fbNone "u1" none mapping0 1 row2 (txn2 "u1")
      (by with_unfolding_all rfl)⟩

end Rupio
